import Mathlib

/-!
# Verification of the enscribe-ts naming orchestration core

A shallow embedding of the TypeScript sources of the `enscribe-ts`
library (`src/utils.ts`, `src/naming.ts`, `src/L1Naming.ts` — present as
`unnamed/part_003` —, `src/L2Naming.ts`, and the older combined naming
module present as `unnamed/part_002`), together with proofs about the
embedded operations.

Modelling conventions:
* JS strings are Lean `String`s; `toLowerCase` is `lowerStr`
  (`Char.toLower` on every character, exact for the ASCII hex/name
  strings the library manipulates).
* `viem`'s `namehash` and `keccak256` are external pure collaborators;
  a node is modelled as the (injectively tagged) name it hashes, and the
  on-chain subnode derivation `keccak(parentNode ++ labelHash)` is
  modelled by `subnode`, consistent with that tagging.
* Chain reads are total functions of an explicit `ChainState`; the
  `owner()` probe of an arbitrary contract may revert, which is
  modelled by an `Option` result.  Every `readContract` /
  `writeContract` performed is recorded in an explicit `Trace`, and
  writes update the state through `applyWrite`.
* `viem.isAddress` and the per-network contract-address tables
  (`contracts.ts`) are external collaborators and live in `Env`.
* The telemetry `fetch` inside `logMetric` either succeeds or rejects;
  this is the `metricsOk` flag of `Env`.
* JS truthiness of the optional numeric `coinType` parameter
  (`coinType ? a : b`) is modelled by `jsTruthyCoin`: the value `0`
  (and `NaN`, which `Number(undefined)` produces) is falsy.
-/

namespace Enscribe

/-- JS `String.prototype.toLowerCase` (exact on the ASCII strings used
here), modelled at the character level. -/
def lowerStr (s : String) : String := String.mk (s.data.map Char.toLower)

/-- JS `String.prototype.trim`, modelled at the character level. -/
def jsTrim (s : String) : String :=
  String.mk (((s.data.dropWhile Char.isWhitespace).reverse.dropWhile
    Char.isWhitespace).reverse)

/-- JS `String.prototype.slice(2)`, modelled at the character level. -/
def jsSlice2 (s : String) : String := String.mk (s.data.drop 2)

/-- JS `String.prototype.split(".")` (single-character separator),
modelled at the character level: every occurrence of the dot separates
two (possibly empty) chunks. -/
def jsSplitDot : List Char → List (List Char)
  | [] => [[]]
  | c :: cs =>
    if c = '.' then [] :: jsSplitDot cs
    else
      match jsSplitDot cs with
      | h :: t => (c :: h) :: t
      | [] => [[c]]

/-- The `ContractType` union type of `types.ts`. -/
inductive ContractType
  | Ownable
  | ReverseClaimer
  | Unknown
deriving DecidableEq, Repr

/-- An ENS node (the result of `namehash`), tagged by the name it hashes. -/
structure Node where
  name : String
deriving DecidableEq, Repr

/-- `viem`'s `namehash`, modelled as injective tagging (external collaborator). -/
def namehash (s : String) : Node := ⟨s⟩

/-- On-chain subnode derivation: the node obtained by creating `label` under
`parent` (registry semantics `keccak(parent ++ keccak(label))`, consistently
with the `namehash` tagging). -/
def subnode (parent : Node) (label : String) : Node := ⟨label ++ "." ++ parent.name⟩

/-- The reverse node of an address: `namehash(address.slice(2).toLowerCase()
+ "." + "addr.reverse")`, as computed at each use site in the sources. -/
def reverseNode (address : String) : Node :=
  namehash (lowerStr (jsSlice2 address) ++ "." ++ "addr.reverse")

/-- The `ENSContracts` configuration record of `types.ts`. -/
structure ENSContracts where
  ENS_REGISTRY : String
  PUBLIC_RESOLVER : String
  NAME_WRAPPER : String
  REVERSE_REGISTRAR : String
  L2_REVERSE_REGISTRAR : Option String
  COIN_TYPE : Option Nat
deriving DecidableEq, Repr

/-- The ambient execution environment: the wallet account, the chain id,
and the external collaborators (`viem.isAddress`, the `contracts.ts`
address tables, and the telemetry endpoint's behaviour). -/
structure Env where
  account : String
  chainId : Nat
  viemIsAddress : String → Bool
  getContractAddresses : String → ENSContracts
  metricsOk : Bool

/-- One `readContract` call, with its target contract and arguments. -/
inductive ReadCall
  | registryRecordExists (registry : String) (node : Node)
  | registryOwner (registry : String) (node : Node)
  | registryResolver (registry : String) (node : Node)
  | wrapperIsWrapped (wrapper : String) (node : Node)
  | resolverAddr (resolver : String) (node : Node)
  | resolverAddrCoin (resolver : String) (node : Node) (coinType : Nat)
  | ownableOwner (contract : String)
deriving DecidableEq, Repr

/-- One `writeContract` call, with its target contract and arguments.
The registry variant carries the label whose keccak hash the source
passes; the wrapper variant carries the raw label string, as in the
source. -/
inductive WriteCall
  | registrySetSubnodeRecord (registry : String) (parentNode : Node) (label : String)
      (owner resolver : String) (ttl : Nat)
  | wrapperSetSubnodeRecord (wrapper : String) (parentNode : Node) (label : String)
      (owner resolver : String) (ttl expiry fuses : Nat)
  | resolverSetAddr (resolver : String) (node : Node) (addr : String)
  | resolverSetAddrCoin (resolver : String) (node : Node) (coinType : Nat) (addr : String)
  | resolverSetName (resolver : String) (node : Node) (name : String)
  | reverseSetNameForAddr4 (registrar : String) (addr owner resolver name : String)
  | reverseSetNameForAddr2 (registrar : String) (addr name : String)
deriving DecidableEq, Repr

/-- A chain interaction: a read or a write. -/
inductive ChainCall
  | read (r : ReadCall)
  | write (w : WriteCall)
deriving DecidableEq, Repr

abbrev Trace := List ChainCall

/-- The writes contained in a trace. -/
def writesOf (t : Trace) : List WriteCall :=
  t.filterMap fun c => match c with
    | .write w => some w
    | .read _ => none

/-- The reads contained in a trace. -/
def readsOf (t : Trace) : List ReadCall :=
  t.filterMap fun c => match c with
    | .read r => some r
    | .write _ => none

/-- The observable on-chain state the library reads and writes. -/
structure ChainState where
  recordExists : Node → Bool
  registryOwner : Node → String
  registryResolver : Node → String
  wrapped : Node → Bool
  addrRecord : Node → String
  addrCoinRecord : Node → Nat → String
  nameRecord : Node → String
  ownerOf : String → Option String

/-- The transaction hash returned by `writeContract` (modelled as a
deterministic tag of the call shape; only its existence matters). -/
def txHashOf : WriteCall → String
  | .registrySetSubnodeRecord .. => "0xtx_registry_setSubnodeRecord"
  | .wrapperSetSubnodeRecord .. => "0xtx_wrapper_setSubnodeRecord"
  | .resolverSetAddr .. => "0xtx_resolver_setAddr"
  | .resolverSetAddrCoin .. => "0xtx_resolver_setAddrCoin"
  | .resolverSetName .. => "0xtx_resolver_setName"
  | .reverseSetNameForAddr4 .. => "0xtx_reverseRegistrar_setNameForAddr"
  | .reverseSetNameForAddr2 .. => "0xtx_l2ReverseRegistrar_setNameForAddr"

/-- Effect of a finalized write transaction on the observable state
(semantics of the assumed-correct registry/wrapper/resolver/registrar
contracts). -/
def applyWrite (s : ChainState) (w : WriteCall) : ChainState :=
  match w with
  | .registrySetSubnodeRecord _ p label owner res _ =>
      { s with
        recordExists := fun n => if n = subnode p label then true else s.recordExists n
        registryOwner := fun n => if n = subnode p label then owner else s.registryOwner n
        registryResolver := fun n => if n = subnode p label then res else s.registryResolver n }
  | .wrapperSetSubnodeRecord wrapper p label _ res _ _ _ =>
      { s with
        recordExists := fun n => if n = subnode p label then true else s.recordExists n
        registryOwner := fun n => if n = subnode p label then wrapper else s.registryOwner n
        registryResolver := fun n => if n = subnode p label then res else s.registryResolver n }
  | .resolverSetAddr _ node a =>
      { s with addrRecord := fun n => if n = node then a else s.addrRecord n }
  | .resolverSetAddrCoin _ node c a =>
      { s with addrCoinRecord := fun n k => if n = node ∧ k = c then a else s.addrCoinRecord n k }
  | .resolverSetName _ node nm =>
      { s with nameRecord := fun n => if n = node then nm else s.nameRecord n }
  | .reverseSetNameForAddr4 _ addr _ _ nm =>
      { s with nameRecord := fun n => if n = reverseNode addr then nm else s.nameRecord n }
  | .reverseSetNameForAddr2 _ addr nm =>
      { s with nameRecord := fun n => if n = reverseNode addr then nm else s.nameRecord n }

/-! ## utils.ts -/

/-- `isEmpty` of `utils.ts` (null is not representable; a Lean `String`
is never null). -/
def isEmpty (value : String) : Bool := (jsTrim value).length == 0

/-- `isAddressEmpty` of `utils.ts`. -/
def isAddressEmpty (address : String) : Bool := isEmpty address

/-- `isAddressValid` of `utils.ts` (`viem.isAddress` is the external
oracle in `Env`). -/
def isAddressValid (env : Env) (address : String) : Bool :=
  if isEmpty address then false
  else if !env.viemIsAddress address then false
  else true

/-- The error outcomes the embedded code can raise. -/
inductive NamingErr
  | invalidName
  | unsupportedContractType
  | metricsFailure
deriving DecidableEq, Repr

/-- The `{label, parent}` result of `parseNormalizedName`. -/
structure NameParts where
  label : String
  parent : String
deriving DecidableEq, Repr

/-- JS `Array.prototype.join(".")` (external builtin, modelled exactly). -/
def joinDot : List String → String
  | [] => ""
  | [a] => a
  | a :: rest => a ++ "." ++ joinDot rest

/-- `parseNormalizedName` of `utils.ts`: split on ".", fail when fewer
than two segments, else label = first segment, parent = remaining
segments rejoined.  JS `split(".")` for the one-character separator is
`String.split (fun c => c == '.')`. -/
def parseNormalizedName (normalizedName : String) : Except NamingErr NameParts :=
  let parts := (jsSplitDot normalizedName.data).map String.mk
  if parts.length < 2 then .error .invalidName
  else .ok ⟨parts.headD "", joinDot parts.tail⟩

/-- `isOwnable` of `utils.ts` (identical in `part_002`): probe `owner()`
on the target and treat a revert as `false`. -/
def isOwnable (env : Env) (address : String) (s : ChainState) : Bool × Trace :=
  if isAddressEmpty address || !isAddressValid env address then (false, [])
  else
    match s.ownerOf address with
    | some _ => (true, [.read (.ownableOwner address)])
    | none => (false, [.read (.ownableOwner address)])

/-- `isReverseClaimable` of `utils.ts` (identical in `part_002`): the
registry owner of the address's reverse node must equal the caller's
account (case-insensitively). -/
def isReverseClaimable (env : Env) (address : String) (ensRegistry : String)
    (s : ChainState) : Bool × Trace :=
  if isAddressEmpty address || !isAddressValid env address then (false, [])
  else
    let reversedNode := reverseNode address
    let resolvedAddr := s.registryOwner reversedNode
    (lowerStr resolvedAddr == lowerStr env.account,
     [.read (.registryOwner ensRegistry reversedNode)])

/-- `detectContractType` of `utils.ts`: probe Ownable first, then
ReverseClaimer. -/
def detectContractType (env : Env) (contractAddress : String) (ensRegistry : String)
    (s : ChainState) : ContractType × Trace :=
  let own := isOwnable env contractAddress s
  if own.1 then (.Ownable, own.2)
  else
    let rc := isReverseClaimable env contractAddress ensRegistry s
    if rc.1 then (.ReverseClaimer, own.2 ++ rc.2)
    else (.Unknown, own.2 ++ rc.2)

/-- `detectContractType` of the naming modules (`naming.ts` old variant
and `unnamed/part_002`): probe ReverseClaimer first, then Ownable. -/
def detectContractTypeRC (env : Env) (contractAddress : String) (ensRegistry : String)
    (s : ChainState) : ContractType × Trace :=
  let rc := isReverseClaimable env contractAddress ensRegistry s
  if rc.1 then (.ReverseClaimer, rc.2)
  else
    let own := isOwnable env contractAddress s
    if own.1 then (.Ownable, rc.2 ++ own.2)
    else (.Unknown, rc.2 ++ own.2)

/-- `isContractOwner` of `utils.ts` (identical in `part_002`): compare
`owner()` to the caller; on revert fall back to the registry owner of
the reverse node. -/
def isContractOwner (env : Env) (address : String) (ensRegistry : String)
    (s : ChainState) : Bool × Trace :=
  if isAddressEmpty address || !isAddressValid env address then (false, [])
  else
    match s.ownerOf address with
    | some ownerAddress =>
        (lowerStr ownerAddress == lowerStr env.account,
         [.read (.ownableOwner address)])
    | none =>
        let reversedNode := reverseNode address
        (lowerStr (s.registryOwner reversedNode) == lowerStr env.account,
         [.read (.ownableOwner address), .read (.registryOwner ensRegistry reversedNode)])

/-- `getNetworkInfo` of `utils.ts`: `(isL2, networkName)`. -/
def getNetworkInfo (chainName : String) : Bool × String :=
  let chainLower := lowerStr chainName
  if chainLower == "linea-sepolia" || chainLower == "linea" ||
     chainLower == "optimism-sepolia" || chainLower == "optimism" ||
     chainLower == "arbitrum-sepolia" || chainLower == "arbitrum" ||
     chainLower == "scroll-sepolia" || chainLower == "scroll" ||
     chainLower == "base-sepolia" || chainLower == "base"
  then (true, chainLower) else (false, chainLower)

/-- `logMetric` of `utils.ts`: a POST to the metrics endpoint whose
`fetch` either resolves or rejects (the `metricsOk` flag of `Env`). -/
def logMetric (env : Env) : Except NamingErr Unit :=
  if env.metricsOk then .ok () else .error .metricsFailure

/-- The `if (enableMetrics) { await logMetric(...) }` epilogue shared by
every step function: a rejection of the un-guarded `await` propagates. -/
def metricsGate {α : Type} (env : Env) (enableMetrics : Bool) (a : α) :
    Except NamingErr α :=
  if enableMetrics then
    match logMetric env with
    | .error e => .error e
    | .ok _ => .ok a
  else .ok a

/-! ## Step results (`types.ts`) -/

/-- `CreateSubnameResult` of `types.ts`. -/
structure CreateSubnameResult where
  created : Bool
  transactionHash : Option String
deriving DecidableEq, Repr

/-- `SetForwardResolutionResult` of `types.ts`. -/
structure SetForwardResolutionResult where
  set : Bool
  transactionHash : Option String
deriving DecidableEq, Repr

/-- `SetReverseResolutionResult` of `types.ts`. -/
structure SetReverseResolutionResult where
  set : Bool
  transactionHash : Option String
  reason : Option String
deriving DecidableEq, Repr

/-- JS truthiness of the optional numeric `coinType` argument: the
branch `coinType ? a : b` takes `b` when `coinType` is `undefined`, `0`
or `NaN`.  Returns the coin type exactly when it is truthy. -/
def jsTruthyCoin : Option Nat → Option Nat
  | none => none
  | some c => if c != 0 then some c else none

/-- `Number(contracts.COIN_TYPE)` for the optional configured coin type:
`Number(undefined)` is `NaN`, which is falsy exactly like `0`, and is
never used as a value on the falsy branch, so it is modelled by `0`. -/
def jsNumberCoin (o : Option Nat) : Option Nat := some (o.getD 0)

/-! ## L1Naming.ts (`unnamed/part_003`; `createSubname` and
`setReverseResolution` are textually identical in `unnamed/part_002`) -/

namespace L1

open Enscribe

/-- `createSubname` of `L1Naming.ts`: parse the name, skip when the
record exists, otherwise branch on `isWrapped(parentNode)` and create
the child through the wrapper or directly on the registry, then run the
metrics epilogue. -/
def createSubname (env : Env) (contracts : ENSContracts)
    (normalizedName contractAddress : String) (contractType : ContractType)
    (enableMetrics : Bool) (s : ChainState) :
    Except NamingErr CreateSubnameResult × ChainState × Trace :=
  match parseNormalizedName normalizedName with
  | .error e => (.error e, s, [])
  | .ok parts =>
    let parentNode := namehash parts.parent
    let fullNameNode := namehash normalizedName
    let t0 : Trace := [.read (.registryRecordExists contracts.ENS_REGISTRY fullNameNode)]
    if s.recordExists fullNameNode then
      (.ok ⟨false, none⟩, s, t0)
    else
      let t1 := t0 ++ [.read (.wrapperIsWrapped contracts.NAME_WRAPPER parentNode)]
      if s.wrapped parentNode then
        let w := WriteCall.wrapperSetSubnodeRecord contracts.NAME_WRAPPER parentNode
                   parts.label env.account contracts.PUBLIC_RESOLVER 0 0 0
        (metricsGate env enableMetrics ⟨true, some (txHashOf w)⟩,
         applyWrite s w, t1 ++ [.write w])
      else
        let w := WriteCall.registrySetSubnodeRecord contracts.ENS_REGISTRY parentNode
                   parts.label env.account contracts.PUBLIC_RESOLVER 0
        (metricsGate env enableMetrics ⟨true, some (txHashOf w)⟩,
         applyWrite s w, t1 ++ [.write w])

/-- `setForwardResolution` of `L1Naming.ts` (textually identical in
`L2Naming.ts` and `unnamed/part_002`): read the current record (coin-
qualified when the coin type is truthy), skip when it already equals
the target case-insensitively, else write the new value. -/
def setForwardResolution (env : Env) (contracts : ENSContracts)
    (normalizedName contractAddress : String) (contractType : ContractType)
    (coinType : Option Nat) (enableMetrics : Bool) (s : ChainState) :
    Except NamingErr SetForwardResolutionResult × ChainState × Trace :=
  let fullNameNode := namehash normalizedName
  match jsTruthyCoin coinType with
  | some c =>
      let currentAddr := s.addrCoinRecord fullNameNode c
      let t0 : Trace := [.read (.resolverAddrCoin contracts.PUBLIC_RESOLVER fullNameNode c)]
      if lowerStr currentAddr == lowerStr contractAddress then
        (.ok ⟨false, none⟩, s, t0)
      else
        let w := WriteCall.resolverSetAddrCoin contracts.PUBLIC_RESOLVER fullNameNode c
                   contractAddress
        (metricsGate env enableMetrics ⟨true, some (txHashOf w)⟩,
         applyWrite s w, t0 ++ [.write w])
  | none =>
      let currentAddr := s.addrRecord fullNameNode
      let t0 : Trace := [.read (.resolverAddr contracts.PUBLIC_RESOLVER fullNameNode)]
      if lowerStr currentAddr == lowerStr contractAddress then
        (.ok ⟨false, none⟩, s, t0)
      else
        let w := WriteCall.resolverSetAddr contracts.PUBLIC_RESOLVER fullNameNode
                   contractAddress
        (metricsGate env enableMetrics ⟨true, some (txHashOf w)⟩,
         applyWrite s w, t0 ++ [.write w])

/-- `setReverseResolution` of `L1Naming.ts` (textually identical in
`unnamed/part_002`): skip as `not_owner` unless `isContractOwner`, then
dispatch — ReverseClaimer writes `setName` on the public resolver at the
address's reverse node, Ownable writes the four-argument
`setNameForAddr` on the reverse registrar, Unknown throws. -/
def setReverseResolution (env : Env) (contracts : ENSContracts)
    (normalizedName contractAddress : String) (contractType : ContractType)
    (enableMetrics : Bool) (s : ChainState) :
    Except NamingErr SetReverseResolutionResult × ChainState × Trace :=
  let io := isContractOwner env contractAddress contracts.ENS_REGISTRY s
  if !io.1 then
    (.ok ⟨false, none, some "not_owner"⟩, s, io.2)
  else
    match contractType with
    | .ReverseClaimer =>
        let w := WriteCall.resolverSetName contracts.PUBLIC_RESOLVER
                   (reverseNode contractAddress) normalizedName
        (metricsGate env enableMetrics ⟨true, some (txHashOf w), none⟩,
         applyWrite s w, io.2 ++ [.write w])
    | .Ownable =>
        let w := WriteCall.reverseSetNameForAddr4 contracts.REVERSE_REGISTRAR
                   contractAddress env.account contracts.PUBLIC_RESOLVER normalizedName
        (metricsGate env enableMetrics ⟨true, some (txHashOf w), none⟩,
         applyWrite s w, io.2 ++ [.write w])
    | .Unknown =>
        (.error .unsupportedContractType, s, io.2)

end L1

/-! ## L2Naming.ts -/

namespace L2

open Enscribe

/-- `createSubname` of `L2Naming.ts`: parse the name, skip when the
record exists, otherwise read the parent node's resolver from the
registry and create the child directly on the registry with that
resolver (no wrapper branch). -/
def createSubname (env : Env) (contracts : ENSContracts)
    (normalizedName contractAddress : String) (contractType : ContractType)
    (enableMetrics : Bool) (s : ChainState) :
    Except NamingErr CreateSubnameResult × ChainState × Trace :=
  match parseNormalizedName normalizedName with
  | .error e => (.error e, s, [])
  | .ok parts =>
    let parentNode := namehash parts.parent
    let fullNameNode := namehash normalizedName
    let t0 : Trace := [.read (.registryRecordExists contracts.ENS_REGISTRY fullNameNode)]
    if s.recordExists fullNameNode then
      (.ok ⟨false, none⟩, s, t0)
    else
      let resolver := s.registryResolver parentNode
      let t1 := t0 ++ [.read (.registryResolver contracts.ENS_REGISTRY parentNode)]
      let w := WriteCall.registrySetSubnodeRecord contracts.ENS_REGISTRY parentNode
                 parts.label env.account resolver 0
      (metricsGate env enableMetrics ⟨true, some (txHashOf w)⟩,
       applyWrite s w, t1 ++ [.write w])

/-- `setReverseResolution` of `L2Naming.ts`: skip as `not_owner` unless
`isContractOwner`, then dispatch — Ownable writes the two-argument
`setNameForAddr` on the reverse registrar, ReverseClaimer writes
`setName` on the public resolver at the address's reverse node, Unknown
throws. -/
def setReverseResolution (env : Env) (contracts : ENSContracts)
    (normalizedName contractAddress : String) (contractType : ContractType)
    (enableMetrics : Bool) (s : ChainState) :
    Except NamingErr SetReverseResolutionResult × ChainState × Trace :=
  let io := isContractOwner env contractAddress contracts.ENS_REGISTRY s
  if !io.1 then
    (.ok ⟨false, none, some "not_owner"⟩, s, io.2)
  else
    match contractType with
    | .Ownable =>
        let w := WriteCall.reverseSetNameForAddr2 contracts.REVERSE_REGISTRAR
                   contractAddress normalizedName
        (metricsGate env enableMetrics ⟨true, some (txHashOf w), none⟩,
         applyWrite s w, io.2 ++ [.write w])
    | .ReverseClaimer =>
        let w := WriteCall.resolverSetName contracts.PUBLIC_RESOLVER
                   (reverseNode contractAddress) normalizedName
        (metricsGate env enableMetrics ⟨true, some (txHashOf w), none⟩,
         applyWrite s w, io.2 ++ [.write w])
    | .Unknown =>
        (.error .unsupportedContractType, s, io.2)

end L2

/-! ## The aggregate result (`types.ts`) and the orchestrators -/

/-- The sparse `transactions` map of `NameContractResult`. -/
structure Transactions where
  subname : Option String := none
  forwardResolution : Option String := none
  reverseResolution : Option String := none
  l2ForwardResolution : Option String := none
  l2ReverseResolution : Option String := none
deriving DecidableEq, Repr

/-- `NameContractResult` of `types.ts`. -/
structure NameContractResult where
  success : Bool
  name : String
  contractAddress : String
  transactions : Transactions
  contractType : ContractType
  explorerUrl : String
deriving DecidableEq, Repr

/-- The explorer locator URL built at the end of orchestration. -/
def explorerUrlOf (chainId : Nat) (name : String) : String :=
  "https://app.enscribe.xyz/explore/" ++ toString chainId ++ "/" ++ name

namespace Old

open Enscribe

/-- `nameContract` of `unnamed/part_002`: detect the type (ReverseClaimer
first), then create the subname, set forward resolution, set reverse
resolution — the step functions of that file are textually identical to
the `L1Naming.ts` ones — and, when an L2 client and contract set are
configured, set the coin-qualified forward record on the L1 resolver and
best-effort the reverse record on the L2 reverse registrar (the whole L2
reverse block, its metrics call included, is wrapped in try/catch).
`s1` is the L1 client's chain, `s2` the L2 client's. -/
def nameContract (env : Env) (l1Contracts : ENSContracts)
    (l2Contracts : Option ENSContracts) (normalizedName contractAddress : String)
    (enableMetrics : Bool) (s1 s2 : ChainState) :
    Except NamingErr NameContractResult × ChainState × ChainState × Trace :=
  let det := detectContractTypeRC env contractAddress l1Contracts.ENS_REGISTRY s1
  let contractType := det.1
  match L1.createSubname env l1Contracts normalizedName contractAddress contractType
      enableMetrics s1 with
  | (.error e, s1a, tA) => (.error e, s1a, s2, det.2 ++ tA)
  | (.ok subnameResult, s1a, tA) =>
    match L1.setForwardResolution env l1Contracts normalizedName contractAddress
        contractType none enableMetrics s1a with
    | (.error e, s1b, tB) => (.error e, s1b, s2, det.2 ++ tA ++ tB)
    | (.ok forwardResResult, s1b, tB) =>
      match L1.setReverseResolution env l1Contracts normalizedName contractAddress
          contractType enableMetrics s1b with
      | (.error e, s1c, tC) => (.error e, s1c, s2, det.2 ++ tA ++ tB ++ tC)
      | (.ok reverseResResult, s1c, tC) =>
        let txs : Transactions :=
          { subname := if subnameResult.created && subnameResult.transactionHash.isSome
              then subnameResult.transactionHash else none
            forwardResolution := if forwardResResult.set && forwardResResult.transactionHash.isSome
              then forwardResResult.transactionHash else none
            reverseResolution := if reverseResResult.set && reverseResResult.transactionHash.isSome
              then reverseResResult.transactionHash else none }
        match l2Contracts with
        | none =>
          (.ok ⟨true, normalizedName, contractAddress, txs, contractType,
              explorerUrlOf env.chainId normalizedName⟩,
           s1c, s2, det.2 ++ tA ++ tB ++ tC)
        | some l2c =>
          match L1.setForwardResolution env l1Contracts normalizedName contractAddress
              contractType (jsNumberCoin l2c.COIN_TYPE) enableMetrics s1c with
          | (.error e, s1d, tD) => (.error e, s1d, s2, det.2 ++ tA ++ tB ++ tC ++ tD)
          | (.ok l2FwdResult, s1d, tD) =>
            let txs := { txs with
              l2ForwardResolution := if l2FwdResult.set && l2FwdResult.transactionHash.isSome
                then l2FwdResult.transactionHash else none }
            let tryRead : Trace := [.read (.ownableOwner contractAddress)]
            match s2.ownerOf contractAddress with
            | none =>
              -- the owner() probe on L2 reverted: caught, reverse resolution skipped
              (.ok ⟨true, normalizedName, contractAddress, txs, contractType,
                  explorerUrlOf env.chainId normalizedName⟩,
               s1d, s2, det.2 ++ tA ++ tB ++ tC ++ tD ++ tryRead)
            | some _ =>
              let w := WriteCall.reverseSetNameForAddr2 (l2c.L2_REVERSE_REGISTRAR.getD "")
                         contractAddress normalizedName
              let s2a := applyWrite s2 w
              let tE := tryRead ++ [.write w]
              match metricsGate env enableMetrics () with
              | .error _ =>
                -- the metrics rejection is swallowed by the catch, after the
                -- write already landed; the transaction id is not recorded
                (.ok ⟨true, normalizedName, contractAddress, txs, contractType,
                    explorerUrlOf env.chainId normalizedName⟩,
                 s1d, s2a, det.2 ++ tA ++ tB ++ tC ++ tD ++ tE)
              | .ok _ =>
                let txs := { txs with l2ReverseResolution := some (txHashOf w) }
                (.ok ⟨true, normalizedName, contractAddress, txs, contractType,
                    explorerUrlOf env.chainId normalizedName⟩,
                 s1d, s2a, det.2 ++ tA ++ tB ++ tC ++ tD ++ tE)

end Old

namespace New

open Enscribe

/-- The request shape of `nameContract` in `src/naming.ts`. -/
structure NameContractOptions where
  name : String
  contractAddress : String
  chainName : String
  enableMetrics : Bool
deriving Repr

/-- `nameContract` of `src/naming.ts`: resolve the network and its
contract set, detect the type with `utils.detectContractType` (Ownable
first), then run subname / forward / reverse — through the
`L1Naming.ts` steps on an L1 network, and through the `L2Naming.ts`
steps (coin-qualified forward) on an L2 network. -/
def nameContract (env : Env) (opts : NameContractOptions) (s : ChainState) :
    Except NamingErr NameContractResult × ChainState × Trace :=
  let info := getNetworkInfo opts.chainName
  let contracts := env.getContractAddresses info.2
  let det := detectContractType env opts.contractAddress contracts.ENS_REGISTRY s
  let contractType := det.1
  if !info.1 then
    match L1.createSubname env contracts opts.name opts.contractAddress contractType
        opts.enableMetrics s with
    | (.error e, sa, tA) => (.error e, sa, det.2 ++ tA)
    | (.ok subnameResult, sa, tA) =>
      match L1.setForwardResolution env contracts opts.name opts.contractAddress
          contractType none opts.enableMetrics sa with
      | (.error e, sb, tB) => (.error e, sb, det.2 ++ tA ++ tB)
      | (.ok forwardResResult, sb, tB) =>
        match L1.setReverseResolution env contracts opts.name opts.contractAddress
            contractType opts.enableMetrics sb with
        | (.error e, sc, tC) => (.error e, sc, det.2 ++ tA ++ tB ++ tC)
        | (.ok reverseResResult, sc, tC) =>
          let txs : Transactions :=
            { subname := if subnameResult.created && subnameResult.transactionHash.isSome
                then subnameResult.transactionHash else none
              forwardResolution := if forwardResResult.set && forwardResResult.transactionHash.isSome
                then forwardResResult.transactionHash else none
              reverseResolution := if reverseResResult.set && reverseResResult.transactionHash.isSome
                then reverseResResult.transactionHash else none }
          (.ok ⟨true, opts.name, opts.contractAddress, txs, contractType,
              explorerUrlOf env.chainId opts.name⟩,
           sc, det.2 ++ tA ++ tB ++ tC)
  else
    match L2.createSubname env contracts opts.name opts.contractAddress contractType
        opts.enableMetrics s with
    | (.error e, sa, tA) => (.error e, sa, det.2 ++ tA)
    | (.ok subnameResult, sa, tA) =>
      match L1.setForwardResolution env contracts opts.name opts.contractAddress
          contractType (jsNumberCoin contracts.COIN_TYPE) opts.enableMetrics sa with
      | (.error e, sb, tB) => (.error e, sb, det.2 ++ tA ++ tB)
      | (.ok forwardResResult, sb, tB) =>
        match L2.setReverseResolution env contracts opts.name opts.contractAddress
            contractType opts.enableMetrics sb with
        | (.error e, sc, tC) => (.error e, sc, det.2 ++ tA ++ tB ++ tC)
        | (.ok reverseResResult, sc, tC) =>
          let txs : Transactions :=
            { subname := if subnameResult.created && subnameResult.transactionHash.isSome
                then subnameResult.transactionHash else none
              forwardResolution := if forwardResResult.set && forwardResResult.transactionHash.isSome
                then forwardResResult.transactionHash else none
              reverseResolution := if reverseResResult.set && reverseResResult.transactionHash.isSome
                then reverseResResult.transactionHash else none }
          (.ok ⟨true, opts.name, opts.contractAddress, txs, contractType,
              explorerUrlOf env.chainId opts.name⟩,
           sc, det.2 ++ tA ++ tB ++ tC)

end New

/-! ## Helper views for statements -/

/-- Whether an `Except` result is a success. -/
def exceptOk {e a : Type} (x : Except e a) : Bool :=
  match x with
  | .ok _ => true
  | .error _ => false

/-- The success flag of a returned `NameContractResult`; an error return
carries no flag and counts as `true` vacuously. -/
def returnedSuccess (x : Except NamingErr NameContractResult) : Bool :=
  match x with
  | .ok r => r.success
  | .error _ => true

/-- The forward record `setForwardResolution` compares against: the
coin-qualified record when the coin type is truthy, the default record
otherwise. -/
def storedForward (s : ChainState) (node : Node) (coinType : Option Nat) : String :=
  match jsTruthyCoin coinType with
  | some c => s.addrCoinRecord node c
  | none => s.addrRecord node

/-- The write `setForwardResolution` issues when it does not skip. -/
def forwardWrite (contracts : ENSContracts) (node : Node) (coinType : Option Nat)
    (contractAddress : String) : WriteCall :=
  match jsTruthyCoin coinType with
  | some c => .resolverSetAddrCoin contracts.PUBLIC_RESOLVER node c contractAddress
  | none => .resolverSetAddr contracts.PUBLIC_RESOLVER node contractAddress

/-- The read `setForwardResolution` performs to fetch the current
record. -/
def forwardRead (contracts : ENSContracts) (node : Node) (coinType : Option Nat) : ReadCall :=
  match jsTruthyCoin coinType with
  | some c => .resolverAddrCoin contracts.PUBLIC_RESOLVER node c
  | none => .resolverAddr contracts.PUBLIC_RESOLVER node

/-- Decidable equality of `Except` results. -/
instance {e a : Type} [DecidableEq e] [DecidableEq a] : DecidableEq (Except e a) := fun x y =>
  match x, y with
  | .ok u, .ok v =>
      if h : u = v then .isTrue (by rw [h])
      else .isFalse (by intro hh; cases hh; exact h rfl)
  | .error u, .error v =>
      if h : u = v then .isTrue (by rw [h])
      else .isFalse (by intro hh; cases hh; exact h rfl)
  | .ok _, .error _ => .isFalse (by intro hh; cases hh)
  | .error _, .ok _ => .isFalse (by intro hh; cases hh)

/-- The child-creation write `createSubname` of `L1Naming.ts` issues:
through the wrapper when the parent is wrapped, directly on the
registry otherwise. -/
def subnameWrite (contracts : ENSContracts) (parentNode : Node) (label account : String)
    (wrapped : Bool) : WriteCall :=
  if wrapped then
    .wrapperSetSubnodeRecord contracts.NAME_WRAPPER parentNode label account
      contracts.PUBLIC_RESOLVER 0 0 0
  else
    .registrySetSubnodeRecord contracts.ENS_REGISTRY parentNode label account
      contracts.PUBLIC_RESOLVER 0

/-! ## Concrete fixtures for witnesses and counterexamples -/

/-- A concrete network contract set. -/
def contracts0 : ENSContracts :=
  { ENS_REGISTRY := "0xreg", PUBLIC_RESOLVER := "0xres", NAME_WRAPPER := "0xwrap",
    REVERSE_REGISTRAR := "0xrev", L2_REVERSE_REGISTRAR := some "0xl2rev",
    COIN_TYPE := some 123 }

/-- A concrete environment whose address oracle accepts exactly the
0x-prefixed strings and whose metrics endpoint is up. -/
def env0 : Env :=
  { account := "0xaaa", chainId := 1,
    viemIsAddress := fun a => a.data.take 2 == ['0', 'x'],
    getContractAddresses := fun _ => contracts0,
    metricsOk := true }

/-- `env0` with a rejecting metrics endpoint. -/
def envBad : Env := { env0 with metricsOk := false }

/-- A base chain state: no records, no owners, nothing wrapped. -/
def s0 : ChainState :=
  { recordExists := fun _ => false
    registryOwner := fun _ => "0x0"
    registryResolver := fun _ => "0xparentres"
    wrapped := fun _ => false
    addrRecord := fun _ => "0x0"
    addrCoinRecord := fun _ _ => "0x0"
    nameRecord := fun _ => ""
    ownerOf := fun _ => none }

/-- A state where `0xBb` answers `owner()` (with a foreign owner). -/
def sOwn : ChainState :=
  { s0 with ownerOf := fun a => if a = "0xBb" then some "0xowner" else none }

/-- A state where both probes succeed on `0xBb`: `owner()` answers, and
the registry owner of its reverse node is the caller's account (in a
different case, exercising the case-insensitive comparison). -/
def sBoth : ChainState :=
  { s0 with
    ownerOf := fun a => if a = "0xBb" then some "0xowner" else none
    registryOwner := fun n => if n = reverseNode "0xBb" then "0xAAA" else "0x0" }

/-- A state where the caller is the reported `owner()` of `0xBb`
(matching up to case). -/
def sOwnMe : ChainState :=
  { s0 with ownerOf := fun a => if a = "0xBb" then some "0xAAA" else none }

/-- A state where the record for `a.b` exists and its forward record
already points at the (invalid) address `foo`. -/
def sExists : ChainState :=
  { s0 with
    recordExists := fun n => decide (n = namehash "a.b")
    addrRecord := fun n => if n = namehash "a.b" then "foo" else "0x0" }

/-- A state where the coin-type-0 forward record of `a.b` already equals
the target `0xBb` but the default record does not. -/
def sCoinZero : ChainState :=
  { s0 with
    addrCoinRecord := fun n k => if n = namehash "a.b" ∧ k = 0 then "0xBb" else "0x0" }

/-- A state where the parent `b` is wrapped (and, as in `s0`, its
registered resolver differs from the configured default). -/
def sWrapped : ChainState :=
  { s0 with wrapped := fun n => decide (n = namehash "b") }

/-- A state where the default forward record of `a.b` already equals the
target `0xBb` up to case. -/
def sFwdSet : ChainState :=
  { s0 with addrRecord := fun n => if n = namehash "a.b" then "0xbb" else "0x0" }


/-- Character-level rejoining with the dot separator. -/
def joinDotChars : List (List Char) → List Char
  | [] => []
  | [a] => a
  | a :: rest => a ++ '.' :: joinDotChars rest

/-! ## Lemmas about name splitting -/

/-- `jsSplitDot` never produces the empty list of chunks. -/
theorem jsSplitDot_ne_nil : ∀ l : List Char, jsSplitDot l ≠ []
  | [] => by simp [jsSplitDot]
  | c :: cs => by
    unfold jsSplitDot
    by_cases hc : c = '.'
    · simp [hc]
    · simp only [hc, if_false]
      match h : jsSplitDot cs with
      | [] => exact absurd h (jsSplitDot_ne_nil cs)
      | x :: xs => simp

/-- Splitting on the dot yields at least two chunks exactly when a dot
occurs. -/
theorem two_le_jsSplitDot_length_iff : ∀ l : List Char,
    2 ≤ (jsSplitDot l).length ↔ '.' ∈ l
  | [] => by simp [jsSplitDot]
  | c :: cs => by
    have ih := two_le_jsSplitDot_length_iff cs
    unfold jsSplitDot
    by_cases hc : c = '.'
    · subst hc
      have hne := jsSplitDot_ne_nil cs
      have hlen : 1 ≤ (jsSplitDot cs).length :=
        Nat.one_le_iff_ne_zero.mpr (fun h => hne (List.length_eq_zero.mp h))
      simp [List.length_cons]
      omega
    · simp only [hc, if_false]
      match h : jsSplitDot cs with
      | [] => exact absurd h (jsSplitDot_ne_nil cs)
      | x :: xs =>
        rw [h] at ih
        constructor
        · intro hlen
          exact List.mem_cons_of_mem c (ih.mp (by simpa using hlen))
        · intro hm
          rcases List.mem_cons.mp hm with h1 | h2
          · exact absurd h1.symm hc
          · simpa using ih.mpr h2

/-- `joinDot` agrees with the character-level rejoin. -/
theorem joinDot_map_mk : ∀ ds : List (List Char),
    joinDot (ds.map String.mk) = String.mk (joinDotChars ds)
  | [] => rfl
  | [d] => rfl
  | d :: e :: t => by
    have ih := joinDot_map_mk (e :: t)
    have h1 : joinDot (String.mk d :: String.mk e :: t.map String.mk) =
        String.mk d ++ "." ++ joinDot (String.mk e :: t.map String.mk) := rfl
    have h2 : joinDotChars (d :: e :: t) = d ++ '.' :: joinDotChars (e :: t) := rfl
    simp only [List.map_cons] at ih ⊢
    rw [h1, ih, h2]
    apply String.ext
    simp

/-- Rejoining the chunks of `jsSplitDot` restores the original
characters. -/
theorem joinDotChars_jsSplitDot : ∀ l : List Char,
    joinDotChars (jsSplitDot l) = l
  | [] => rfl
  | c :: cs => by
    have ih := joinDotChars_jsSplitDot cs
    unfold jsSplitDot
    by_cases hc : c = '.'
    · subst hc
      match h : jsSplitDot cs with
      | [] => exact absurd h (jsSplitDot_ne_nil cs)
      | x :: xs =>
        rw [h] at ih
        simp only [if_pos rfl]
        show joinDotChars ([] :: x :: xs) = '.' :: cs
        show ([] : List Char) ++ '.' :: joinDotChars (x :: xs) = '.' :: cs
        rw [List.nil_append, ih]
    · simp only [hc, if_false]
      match h : jsSplitDot cs with
      | [] => exact absurd h (jsSplitDot_ne_nil cs)
      | [x] =>
        rw [h] at ih
        show joinDotChars [c :: x] = c :: cs
        show c :: x = c :: cs
        rw [show x = cs from ih]
      | x :: y :: xs =>
        rw [h] at ih
        show joinDotChars ((c :: x) :: y :: xs) = c :: cs
        show (c :: x) ++ '.' :: joinDotChars (y :: xs) = c :: cs
        have : x ++ '.' :: joinDotChars (y :: xs) = cs := ih
        simp only [List.cons_append, this]

/-- `parseNormalizedName` succeeds exactly on the strings containing a
dot. -/
theorem parse_ok_iff (s : String) :
    exceptOk (parseNormalizedName s) = s.contains '.' := by
  rw [Bool.eq_iff_iff]
  unfold parseNormalizedName
  simp only [List.length_map]
  constructor
  · intro h
    by_cases h2 : (jsSplitDot s.data).length < 2
    · simp [exceptOk, h2] at h
    · rw [String.contains_iff]
      exact (two_le_jsSplitDot_length_iff s.data).mp (Nat.le_of_not_lt h2)
  · intro h
    rw [String.contains_iff] at h
    have h2 := (two_le_jsSplitDot_length_iff s.data).mpr h
    simp [exceptOk, Nat.not_lt.mpr h2]

/-- A successfully parsed name is its label, a dot, and its parent. -/
theorem parse_reconstruct (s : String) (r : NameParts)
    (h : parseNormalizedName s = .ok r) : s = r.label ++ "." ++ r.parent := by
  unfold parseNormalizedName at h
  match hd : jsSplitDot s.data, h with
  | [], _ => exact absurd hd (jsSplitDot_ne_nil _)
  | [d], h => simp at h
  | d0 :: d1 :: dt, h =>
    simp only [List.length_map, List.length_cons, List.map_cons] at h
    rw [if_neg (by omega)] at h
    cases h
    have hs : s.data = joinDotChars (d0 :: d1 :: dt) := by
      rw [← hd, joinDotChars_jsSplitDot]
    have hcc : joinDotChars (d0 :: d1 :: dt) = d0 ++ '.' :: joinDotChars (d1 :: dt) := rfl
    apply String.ext
    show s.data = _
    rw [hs, hcc]
    simp only [List.headD_cons, List.tail_cons]
    have hj : ({ data := d1 } : String) :: List.map String.mk dt =
        List.map String.mk (d1 :: dt) := rfl
    rw [hj, joinDot_map_mk]
    simp


theorem writesOf_append (a b : Trace) : writesOf (a ++ b) = writesOf a ++ writesOf b := by
  simp [writesOf, List.filterMap_append]

theorem writesOf_read_cons (r : ReadCall) (t : Trace) :
    writesOf (.read r :: t) = writesOf t := by
  simp [writesOf, List.filterMap_cons]

theorem writesOf_write_cons (w : WriteCall) (t : Trace) :
    writesOf (.write w :: t) = w :: writesOf t := by
  simp [writesOf, List.filterMap_cons]

theorem writesOf_nil : writesOf [] = [] := rfl

theorem writesOf_isContractOwner (env : Env) (addr reg : String) (s : ChainState) :
    writesOf (isContractOwner env addr reg s).2 = [] := by
  unfold isContractOwner
  by_cases hv : isAddressEmpty addr || !isAddressValid env addr
  · simp [hv, writesOf]
  · simp only [hv, Bool.false_eq_true, if_false]
    match s.ownerOf addr with
    | some o => simp [writesOf]
    | none => simp [writesOf]

theorem metricsGate_ok {α : Type} (env : Env) (em : Bool) (a : α)
    (hm : env.metricsOk = true) : metricsGate env em a = .ok a := by
  unfold metricsGate logMetric
  cases em <;> simp [hm]

theorem metricsGate_cases {α : Type} (env : Env) (em : Bool) (a : α) :
    metricsGate env em a = .ok a ∨ metricsGate env em a = .error .metricsFailure := by
  unfold metricsGate logMetric
  cases em <;> by_cases hm : env.metricsOk <;> simp [hm]

theorem isContractOwner_false_of_invalid (env : Env) (addr reg : String) (s : ChainState)
    (hv : env.viemIsAddress addr = false) :
    (isContractOwner env addr reg s).1 = false := by
  unfold isContractOwner
  by_cases he : isAddressEmpty addr
  · simp [he]
  · have : isAddressValid env addr = false := by
      unfold isAddressValid
      simp [isAddressEmpty] at he
      simp [he, hv, isEmpty]
    simp [this, he]

theorem parse_fail_of_no_dot (s : String) (h : ¬ '.' ∈ s.data) :
    parseNormalizedName s = .error .invalidName := by
  have hlt : (jsSplitDot s.data).length < 2 :=
    Nat.lt_of_not_le (fun hle => h ((two_le_jsSplitDot_length_iff s.data).mp hle))
  unfold parseNormalizedName
  simp [List.length_map, hlt]



theorem isContractOwner_false_of_not_owner (env : Env) (addr reg : String) (s : ChainState)
    (hown : (s.ownerOf addr).all (fun o => !(lowerStr o == lowerStr env.account)) = true)
    (hrev : (lowerStr (s.registryOwner (reverseNode addr)) == lowerStr env.account) = false) :
    (isContractOwner env addr reg s).1 = false := by
  unfold isContractOwner
  by_cases hv : isAddressEmpty addr || !isAddressValid env addr
  · simp [hv]
  · simp only [hv, Bool.false_eq_true, if_false]
    match ho : s.ownerOf addr with
    | some o =>
      rw [ho] at hown
      simpa using hown
    | none => simpa using hrev

theorem l1_not_owner_skip (env : Env) (contracts : ENSContracts)
    (name addr : String) (ctype : ContractType) (em : Bool) (s : ChainState)
    (hio : (isContractOwner env addr contracts.ENS_REGISTRY s).1 = false) :
    (L1.setReverseResolution env contracts name addr ctype em s).1 =
      .ok ⟨false, none, some "not_owner"⟩ ∧
    writesOf (L1.setReverseResolution env contracts name addr ctype em s).2.2 = [] ∧
    (L1.setReverseResolution env contracts name addr ctype em s).2.1 = s := by
  unfold L1.setReverseResolution
  simp [hio, writesOf_isContractOwner]

theorem l2_not_owner_skip (env : Env) (contracts : ENSContracts)
    (name addr : String) (ctype : ContractType) (em : Bool) (s : ChainState)
    (hio : (isContractOwner env addr contracts.ENS_REGISTRY s).1 = false) :
    (L2.setReverseResolution env contracts name addr ctype em s).1 =
      .ok ⟨false, none, some "not_owner"⟩ ∧
    writesOf (L2.setReverseResolution env contracts name addr ctype em s).2.2 = [] ∧
    (L2.setReverseResolution env contracts name addr ctype em s).2.1 = s := by
  unfold L2.setReverseResolution
  simp [hio, writesOf_isContractOwner]



/-- C1 (amended): the classification sites use opposite probe
priorities — `utils.ts` probes Ownable first, the naming modules probe
ReverseClaimer first — so the two `detectContractType` implementations
return the same `ContractType` exactly when the Ownable probe and the
ReverseClaimer probe do not both succeed; this theorem proves the
agreement under that proviso, and `detect_sites_disagree_cex` exhibits
the disagreement when both probes succeed. -/
theorem detect_sites_agree_when_not_both (env : Env) (addr registry : String) (s : ChainState)
    (h : ¬((isOwnable env addr s).1 = true ∧ (isReverseClaimable env addr registry s).1 = true)) :
    (detectContractType env addr registry s).1 = (detectContractTypeRC env addr registry s).1 := by
  by_cases ho : (isOwnable env addr s).1
  · by_cases hr : (isReverseClaimable env addr registry s).1
    · exact absurd ⟨ho, hr⟩ h
    · simp [detectContractType, detectContractTypeRC, ho, hr]
  · by_cases hr : (isReverseClaimable env addr registry s).1
    · simp [detectContractType, detectContractTypeRC, ho, hr]
    · simp [detectContractType, detectContractTypeRC, ho, hr]

theorem detect_sites_agree_witness :
    (detectContractType env0 "0xBb" "0xreg" sOwn).1 =
      (detectContractTypeRC env0 "0xBb" "0xreg" sOwn).1 :=
  detect_sites_agree_when_not_both env0 "0xBb" "0xreg" sOwn (by decide)

theorem detect_sites_disagree_cex :
    (isOwnable env0 "0xBb" sBoth).1 = true ∧
    (isReverseClaimable env0 "0xBb" "0xreg" sBoth).1 = true ∧
    (detectContractType env0 "0xBb" "0xreg" sBoth).1 = ContractType.Ownable ∧
    (detectContractTypeRC env0 "0xBb" "0xreg" sBoth).1 = ContractType.ReverseClaimer ∧
    (detectContractType env0 "0xBb" "0xreg" sBoth).1 ≠
      (detectContractTypeRC env0 "0xBb" "0xreg" sBoth).1 := by decide

/-- C5: for every name, address, contract type and chain state in which
the caller's account is neither the address's reported `owner()` (when
that probe answers) nor the registry owner of the address's reverse
node, both `setReverseResolution` variants return a skipped result with
reason `not_owner`, perform no `writeContract` call, and leave the
state unchanged. -/
theorem not_owner_skips (env : Env) (contracts : ENSContracts)
    (name addr : String) (ctype : ContractType) (em : Bool) (s : ChainState)
    (hown : (s.ownerOf addr).all (fun o => !(lowerStr o == lowerStr env.account)) = true)
    (hrev : (lowerStr (s.registryOwner (reverseNode addr)) == lowerStr env.account) = false) :
    ((L1.setReverseResolution env contracts name addr ctype em s).1 =
        .ok ⟨false, none, some "not_owner"⟩ ∧
      writesOf (L1.setReverseResolution env contracts name addr ctype em s).2.2 = [] ∧
      (L1.setReverseResolution env contracts name addr ctype em s).2.1 = s) ∧
    ((L2.setReverseResolution env contracts name addr ctype em s).1 =
        .ok ⟨false, none, some "not_owner"⟩ ∧
      writesOf (L2.setReverseResolution env contracts name addr ctype em s).2.2 = [] ∧
      (L2.setReverseResolution env contracts name addr ctype em s).2.1 = s) :=
  ⟨l1_not_owner_skip env contracts name addr ctype em s
      (isContractOwner_false_of_not_owner env addr contracts.ENS_REGISTRY s hown hrev),
   l2_not_owner_skip env contracts name addr ctype em s
      (isContractOwner_false_of_not_owner env addr contracts.ENS_REGISTRY s hown hrev)⟩

theorem not_owner_skips_witness :
    ((L1.setReverseResolution env0 contracts0 "a.b" "0xBb" .Ownable false sOwn).1 =
        .ok ⟨false, none, some "not_owner"⟩ ∧
      writesOf (L1.setReverseResolution env0 contracts0 "a.b" "0xBb" .Ownable false sOwn).2.2 = [] ∧
      (L1.setReverseResolution env0 contracts0 "a.b" "0xBb" .Ownable false sOwn).2.1 = sOwn) ∧
    ((L2.setReverseResolution env0 contracts0 "a.b" "0xBb" .Ownable false sOwn).1 =
        .ok ⟨false, none, some "not_owner"⟩ ∧
      writesOf (L2.setReverseResolution env0 contracts0 "a.b" "0xBb" .Ownable false sOwn).2.2 = [] ∧
      (L2.setReverseResolution env0 contracts0 "a.b" "0xBb" .Ownable false sOwn).2.1 = sOwn) :=
  not_owner_skips env0 contracts0 "a.b" "0xBb" .Ownable false sOwn (by decide) (by decide)

/-- C10: `parseNormalizedName` succeeds exactly on the strings
containing at least one dot — including strings with empty segments:
`"a."` yields label `"a"` and parent `""`, and `"."` yields label `""`
and parent `""` — and throws exactly on the dot-free strings, the empty
string included. -/
theorem parse_normalized_name_spec :
    (∀ s : String, exceptOk (parseNormalizedName s) = s.contains '.') ∧
    parseNormalizedName "a." = .ok ⟨"a", ""⟩ ∧
    parseNormalizedName "." = .ok ⟨"", ""⟩ ∧
    parseNormalizedName "" = .error .invalidName :=
  ⟨parse_ok_iff, rfl, rfl, rfl⟩



/-- C6: given the caller passes the ownership check, with
`ContractType = ReverseClaimer` `setReverseResolution` issues exactly
one write — the public resolver's `setName` at the reverse node derived
from the address; with `Ownable` exactly one write — the reverse
registrar's `setNameForAddr` (four-argument form in `L1Naming.ts`,
two-argument form in `L2Naming.ts`); with `Unknown` it throws
`UnsupportedContractType` without submitting any transaction. -/
theorem reverse_dispatch_correct (env : Env) (contracts : ENSContracts)
    (name addr : String) (em : Bool) (s : ChainState)
    (hown : (isContractOwner env addr contracts.ENS_REGISTRY s).1 = true) :
    (writesOf (L1.setReverseResolution env contracts name addr .ReverseClaimer em s).2.2 =
      [.resolverSetName contracts.PUBLIC_RESOLVER (reverseNode addr) name]) ∧
    (writesOf (L1.setReverseResolution env contracts name addr .Ownable em s).2.2 =
      [.reverseSetNameForAddr4 contracts.REVERSE_REGISTRAR addr env.account
         contracts.PUBLIC_RESOLVER name]) ∧
    ((L1.setReverseResolution env contracts name addr .Unknown em s).1 =
        .error .unsupportedContractType ∧
      writesOf (L1.setReverseResolution env contracts name addr .Unknown em s).2.2 = [] ∧
      (L1.setReverseResolution env contracts name addr .Unknown em s).2.1 = s) ∧
    (writesOf (L2.setReverseResolution env contracts name addr .ReverseClaimer em s).2.2 =
      [.resolverSetName contracts.PUBLIC_RESOLVER (reverseNode addr) name]) ∧
    (writesOf (L2.setReverseResolution env contracts name addr .Ownable em s).2.2 =
      [.reverseSetNameForAddr2 contracts.REVERSE_REGISTRAR addr name]) ∧
    ((L2.setReverseResolution env contracts name addr .Unknown em s).1 =
        .error .unsupportedContractType ∧
      writesOf (L2.setReverseResolution env contracts name addr .Unknown em s).2.2 = [] ∧
      (L2.setReverseResolution env contracts name addr .Unknown em s).2.1 = s) := by
  unfold L1.setReverseResolution L2.setReverseResolution
  simp [hown, writesOf_append, writesOf_isContractOwner, writesOf_write_cons, writesOf_nil]

theorem reverse_dispatch_correct_witness :
    (writesOf (L1.setReverseResolution env0 contracts0 "a.b" "0xBb" .ReverseClaimer false sOwnMe).2.2 =
      [.resolverSetName contracts0.PUBLIC_RESOLVER (reverseNode "0xBb") "a.b"]) ∧
    (writesOf (L1.setReverseResolution env0 contracts0 "a.b" "0xBb" .Ownable false sOwnMe).2.2 =
      [.reverseSetNameForAddr4 contracts0.REVERSE_REGISTRAR "0xBb" env0.account
         contracts0.PUBLIC_RESOLVER "a.b"]) ∧
    ((L1.setReverseResolution env0 contracts0 "a.b" "0xBb" .Unknown false sOwnMe).1 =
        .error .unsupportedContractType ∧
      writesOf (L1.setReverseResolution env0 contracts0 "a.b" "0xBb" .Unknown false sOwnMe).2.2 = [] ∧
      (L1.setReverseResolution env0 contracts0 "a.b" "0xBb" .Unknown false sOwnMe).2.1 = sOwnMe) ∧
    (writesOf (L2.setReverseResolution env0 contracts0 "a.b" "0xBb" .ReverseClaimer false sOwnMe).2.2 =
      [.resolverSetName contracts0.PUBLIC_RESOLVER (reverseNode "0xBb") "a.b"]) ∧
    (writesOf (L2.setReverseResolution env0 contracts0 "a.b" "0xBb" .Ownable false sOwnMe).2.2 =
      [.reverseSetNameForAddr2 contracts0.REVERSE_REGISTRAR "0xBb" "a.b"]) ∧
    ((L2.setReverseResolution env0 contracts0 "a.b" "0xBb" .Unknown false sOwnMe).1 =
        .error .unsupportedContractType ∧
      writesOf (L2.setReverseResolution env0 contracts0 "a.b" "0xBb" .Unknown false sOwnMe).2.2 = [] ∧
      (L2.setReverseResolution env0 contracts0 "a.b" "0xBb" .Unknown false sOwnMe).2.1 = sOwnMe) :=
  reverse_dispatch_correct env0 contracts0 "a.b" "0xBb" false sOwnMe (by decide)



/-- C9 (amended): `setForwardResolution` skips (returns `set = false`
with no write, state unchanged) exactly when the stored record —
the coin-type-qualified record when a *truthy* (nonzero) `coinType` is
supplied, the default record otherwise, because JS truthiness makes
`coinType = 0` behave as absent — lowercased equals the target address
lowercased; otherwise it issues exactly the corresponding `setAddr`
write.  `forward_coin_zero_cex` refutes the unamended claim at
`coinType = 0`. -/
theorem forward_skip_iff_truthy_coin (env : Env) (contracts : ENSContracts)
    (name addr : String) (ctype : ContractType) (coin : Option Nat) (em : Bool)
    (s : ChainState) (hm : env.metricsOk = true) :
    ((lowerStr (storedForward s (namehash name) coin) == lowerStr addr) = true →
      (L1.setForwardResolution env contracts name addr ctype coin em s).1 = .ok ⟨false, none⟩ ∧
      writesOf (L1.setForwardResolution env contracts name addr ctype coin em s).2.2 = [] ∧
      (L1.setForwardResolution env contracts name addr ctype coin em s).2.1 = s) ∧
    ((lowerStr (storedForward s (namehash name) coin) == lowerStr addr) = false →
      (L1.setForwardResolution env contracts name addr ctype coin em s).1 =
        .ok ⟨true, some (txHashOf (forwardWrite contracts (namehash name) coin addr))⟩ ∧
      writesOf (L1.setForwardResolution env contracts name addr ctype coin em s).2.2 =
        [forwardWrite contracts (namehash name) coin addr]) := by
  unfold L1.setForwardResolution storedForward forwardWrite
  match hc : jsTruthyCoin coin with
  | some c =>
    constructor
    · intro heq
      dsimp only at heq
      simp [heq, writesOf]
    · intro hne
      dsimp only at hne
      simp [hne, writesOf_append, writesOf_read_cons, writesOf_write_cons, writesOf_nil,
        metricsGate_ok _ _ _ hm]
  | none =>
    constructor
    · intro heq
      dsimp only at heq
      simp [heq, writesOf]
    · intro hne
      dsimp only at hne
      simp [hne, writesOf_append, writesOf_read_cons, writesOf_write_cons, writesOf_nil,
        metricsGate_ok _ _ _ hm]

theorem forward_skip_iff_truthy_coin_witness :
    ((L1.setForwardResolution env0 contracts0 "a.b" "0xBb" .Ownable none false sFwdSet).1 =
        .ok ⟨false, none⟩ ∧
      writesOf (L1.setForwardResolution env0 contracts0 "a.b" "0xBb" .Ownable none false sFwdSet).2.2 = [] ∧
      (L1.setForwardResolution env0 contracts0 "a.b" "0xBb" .Ownable none false sFwdSet).2.1 = sFwdSet) ∧
    ((L1.setForwardResolution env0 contracts0 "a.b" "0xBb" .Ownable (some 9) false s0).1 =
        .ok ⟨true, some (txHashOf (forwardWrite contracts0 (namehash "a.b") (some 9) "0xBb"))⟩ ∧
      writesOf (L1.setForwardResolution env0 contracts0 "a.b" "0xBb" .Ownable (some 9) false s0).2.2 =
        [forwardWrite contracts0 (namehash "a.b") (some 9) "0xBb"]) :=
  ⟨(forward_skip_iff_truthy_coin env0 contracts0 "a.b" "0xBb" .Ownable none false sFwdSet
      (by decide)).1 (by decide),
   (forward_skip_iff_truthy_coin env0 contracts0 "a.b" "0xBb" .Ownable (some 9) false s0
      (by decide)).2 (by decide)⟩

theorem forward_coin_zero_cex :
    (lowerStr (sCoinZero.addrCoinRecord (namehash "a.b") 0) == lowerStr "0xBb") = true ∧
    (L1.setForwardResolution env0 contracts0 "a.b" "0xBb" .Ownable (some 0) false sCoinZero).1 =
      .ok ⟨true, some "0xtx_resolver_setAddr"⟩ ∧
    writesOf (L1.setForwardResolution env0 contracts0 "a.b" "0xBb" .Ownable (some 0) false
      sCoinZero).2.2 = [.resolverSetAddr "0xres" (namehash "a.b") "0xBb"] := by
  refine ⟨by decide, rfl, rfl⟩



theorem node_eq_subnode (name : String) (r : NameParts)
    (hp : parseNormalizedName name = .ok r) :
    namehash name = subnode (namehash r.parent) r.label :=
  congrArg Node.mk (parse_reconstruct name r hp)

theorem l1_createSubname_run (env : Env) (contracts : ENSContracts)
    (name addr : String) (ctype : ContractType) (em : Bool) (s : ChainState) (r : NameParts)
    (hp : parseNormalizedName name = .ok r)
    (hne : s.recordExists (namehash name) = false) :
    L1.createSubname env contracts name addr ctype em s =
      (metricsGate env em ⟨true, some (txHashOf (subnameWrite contracts (namehash r.parent)
          r.label env.account (s.wrapped (namehash r.parent))))⟩,
       applyWrite s (subnameWrite contracts (namehash r.parent) r.label env.account
          (s.wrapped (namehash r.parent))),
       [.read (.registryRecordExists contracts.ENS_REGISTRY (namehash name)),
        .read (.wrapperIsWrapped contracts.NAME_WRAPPER (namehash r.parent)),
        .write (subnameWrite contracts (namehash r.parent) r.label env.account
          (s.wrapped (namehash r.parent)))]) := by
  unfold L1.createSubname subnameWrite
  rw [hp]
  by_cases hw : s.wrapped (namehash r.parent) <;> simp [hne, hw]

theorem l1_createSubname_skip (env : Env) (contracts : ENSContracts)
    (name addr : String) (ctype : ContractType) (em : Bool) (s : ChainState) (r : NameParts)
    (hp : parseNormalizedName name = .ok r)
    (hex : s.recordExists (namehash name) = true) :
    L1.createSubname env contracts name addr ctype em s =
      (.ok ⟨false, none⟩, s,
       [.read (.registryRecordExists contracts.ENS_REGISTRY (namehash name))]) := by
  unfold L1.createSubname
  rw [hp]
  simp [hex]

theorem recordExists_after_subnameWrite (contracts : ENSContracts) (s : ChainState)
    (name acct : String) (r : NameParts) (wrapped : Bool)
    (hp : parseNormalizedName name = .ok r) :
    (applyWrite s (subnameWrite contracts (namehash r.parent) r.label acct
        wrapped)).recordExists (namehash name) = true := by
  unfold subnameWrite applyWrite
  cases wrapped <;> simp [node_eq_subnode name r hp]




theorem setForward_skip (env : Env) (contracts : ENSContracts)
    (name addr : String) (ctype : ContractType) (coin : Option Nat) (em : Bool) (s : ChainState)
    (heq : (lowerStr (storedForward s (namehash name) coin) == lowerStr addr) = true) :
    L1.setForwardResolution env contracts name addr ctype coin em s =
      (.ok ⟨false, none⟩, s, [.read (forwardRead contracts (namehash name) coin)]) := by
  unfold L1.setForwardResolution storedForward forwardRead at *
  match hc : jsTruthyCoin coin with
  | some c =>
    rw [hc] at heq
    dsimp only at heq
    simp [heq]
  | none =>
    rw [hc] at heq
    dsimp only at heq
    simp [heq]

theorem setForward_write (env : Env) (contracts : ENSContracts)
    (name addr : String) (ctype : ContractType) (coin : Option Nat) (em : Bool) (s : ChainState)
    (hne : (lowerStr (storedForward s (namehash name) coin) == lowerStr addr) = false) :
    L1.setForwardResolution env contracts name addr ctype coin em s =
      (metricsGate env em ⟨true, some (txHashOf (forwardWrite contracts (namehash name) coin addr))⟩,
       applyWrite s (forwardWrite contracts (namehash name) coin addr),
       [.read (forwardRead contracts (namehash name) coin),
        .write (forwardWrite contracts (namehash name) coin addr)]) := by
  unfold L1.setForwardResolution storedForward forwardRead forwardWrite at *
  match hc : jsTruthyCoin coin with
  | some c =>
    rw [hc] at hne
    dsimp only at hne
    simp [hne]
  | none =>
    rw [hc] at hne
    dsimp only at hne
    simp [hne]

theorem storedForward_after_write (contracts : ENSContracts) (s : ChainState)
    (node : Node) (coin : Option Nat) (addr : String) :
    storedForward (applyWrite s (forwardWrite contracts node coin addr)) node coin = addr := by
  unfold storedForward forwardWrite applyWrite
  match jsTruthyCoin coin with
  | some c => simp
  | none => simp



/-- C8: starting from a state where the name's record does not exist,
`createSubname` yields a performed result carrying a transaction hash,
and running it again on the resulting state yields `created = false`
with no write; likewise `setForwardResolution` from a state where the
stored record differs from the target yields a performed result, and
running it again on the resulting state yields `set = false` with no
second write. -/
theorem write_steps_idempotent (env : Env) (contracts : ENSContracts)
    (name addr : String) (ctype : ContractType) (coin : Option Nat) (em : Bool)
    (s : ChainState) (r : NameParts)
    (hm : env.metricsOk = true)
    (hp : parseNormalizedName name = .ok r)
    (hne : s.recordExists (namehash name) = false)
    (hfw : (lowerStr (storedForward s (namehash name) coin) == lowerStr addr) = false) :
    ((L1.createSubname env contracts name addr ctype em s).1 =
      .ok ⟨true, some (txHashOf (subnameWrite contracts (namehash r.parent) r.label env.account
        (s.wrapped (namehash r.parent))))⟩) ∧
    ((L1.createSubname env contracts name addr ctype em
        (L1.createSubname env contracts name addr ctype em s).2.1).1 = .ok ⟨false, none⟩) ∧
    (writesOf (L1.createSubname env contracts name addr ctype em
        (L1.createSubname env contracts name addr ctype em s).2.1).2.2 = []) ∧
    ((L1.setForwardResolution env contracts name addr ctype coin em s).1 =
      .ok ⟨true, some (txHashOf (forwardWrite contracts (namehash name) coin addr))⟩) ∧
    ((L1.setForwardResolution env contracts name addr ctype coin em
        (L1.setForwardResolution env contracts name addr ctype coin em s).2.1).1 =
      .ok ⟨false, none⟩) ∧
    (writesOf (L1.setForwardResolution env contracts name addr ctype coin em
        (L1.setForwardResolution env contracts name addr ctype coin em s).2.1).2.2 = []) := by
  have hrun := l1_createSubname_run env contracts name addr ctype em s r hp hne
  have hskip := l1_createSubname_skip env contracts name addr ctype em
    (applyWrite s (subnameWrite contracts (namehash r.parent) r.label env.account
      (s.wrapped (namehash r.parent)))) r hp
    (recordExists_after_subnameWrite contracts s name env.account r
      (s.wrapped (namehash r.parent)) hp)
  have hfrun := setForward_write env contracts name addr ctype coin em s hfw
  have hfeq : (lowerStr (storedForward
      (applyWrite s (forwardWrite contracts (namehash name) coin addr)) (namehash name) coin) ==
      lowerStr addr) = true := by
    rw [storedForward_after_write]
    exact beq_self_eq_true (lowerStr addr)
  have hfskip := setForward_skip env contracts name addr ctype coin em
    (applyWrite s (forwardWrite contracts (namehash name) coin addr)) hfeq
  refine ⟨?_, ?_, ?_, ?_, ?_, ?_⟩
  · rw [hrun]
    simp [metricsGate_ok _ _ _ hm]
  · rw [hrun]
    dsimp only
    rw [hskip]
  · rw [hrun]
    dsimp only
    rw [hskip]
    simp [writesOf]
  · rw [hfrun]
    simp [metricsGate_ok _ _ _ hm]
  · rw [hfrun]
    dsimp only
    rw [hfskip]
  · rw [hfrun]
    dsimp only
    rw [hfskip]
    simp [writesOf]

theorem write_steps_idempotent_witness :
    ((L1.createSubname env0 contracts0 "a.b" "0xBb" .Ownable false s0).1 =
      .ok ⟨true, some (txHashOf (subnameWrite contracts0 (namehash "b") "a" env0.account
        (s0.wrapped (namehash "b"))))⟩) ∧
    ((L1.createSubname env0 contracts0 "a.b" "0xBb" .Ownable false
        (L1.createSubname env0 contracts0 "a.b" "0xBb" .Ownable false s0).2.1).1 =
      .ok ⟨false, none⟩) ∧
    (writesOf (L1.createSubname env0 contracts0 "a.b" "0xBb" .Ownable false
        (L1.createSubname env0 contracts0 "a.b" "0xBb" .Ownable false s0).2.1).2.2 = []) ∧
    ((L1.setForwardResolution env0 contracts0 "a.b" "0xBb" .Ownable none false s0).1 =
      .ok ⟨true, some (txHashOf (forwardWrite contracts0 (namehash "a.b") none "0xBb"))⟩) ∧
    ((L1.setForwardResolution env0 contracts0 "a.b" "0xBb" .Ownable none false
        (L1.setForwardResolution env0 contracts0 "a.b" "0xBb" .Ownable none false s0).2.1).1 =
      .ok ⟨false, none⟩) ∧
    (writesOf (L1.setForwardResolution env0 contracts0 "a.b" "0xBb" .Ownable none false
        (L1.setForwardResolution env0 contracts0 "a.b" "0xBb" .Ownable none false s0).2.1).2.2
      = []) :=
  write_steps_idempotent env0 contracts0 "a.b" "0xBb" .Ownable none false s0 ⟨"a", "b"⟩
    (by decide) rfl (by decide) (by decide)



/-- C7 (amended): when the record does not yet exist, the
`L1Naming.ts` `createSubname` branches on the parent's wrapping state
and issues exactly one child-creation write — through the name wrapper
when wrapped, directly on the registry otherwise — in both cases with
owner = the caller's account, resolver = the configured default public
resolver, and zero TTL/expiry/fuses (this is `subnameWrite`); the
`L2Naming.ts` `createSubname`, however, never branches: it always
writes directly on the registry, with owner = the caller but with the
parent node's currently registered resolver instead of the configured
default (`l2_create_subname_cex` refutes the unamended claim). -/
theorem create_subname_branches (env : Env) (contracts : ENSContracts)
    (name addr : String) (ctype : ContractType) (em : Bool) (s : ChainState) (r : NameParts)
    (hp : parseNormalizedName name = .ok r)
    (hne : s.recordExists (namehash name) = false) :
    (writesOf (L1.createSubname env contracts name addr ctype em s).2.2 =
      [subnameWrite contracts (namehash r.parent) r.label env.account
        (s.wrapped (namehash r.parent))]) ∧
    (writesOf (L2.createSubname env contracts name addr ctype em s).2.2 =
      [.registrySetSubnodeRecord contracts.ENS_REGISTRY (namehash r.parent) r.label env.account
        (s.registryResolver (namehash r.parent)) 0]) := by
  constructor
  · rw [l1_createSubname_run env contracts name addr ctype em s r hp hne]
    simp [writesOf]
  · unfold L2.createSubname
    rw [hp]
    simp [hne, writesOf_append, writesOf_read_cons, writesOf_write_cons, writesOf_nil]

theorem create_subname_branches_witness :
    (writesOf (L1.createSubname env0 contracts0 "a.b" "0xBb" .Ownable false sWrapped).2.2 =
      [subnameWrite contracts0 (namehash "b") "a" env0.account
        (sWrapped.wrapped (namehash "b"))]) ∧
    (writesOf (L2.createSubname env0 contracts0 "a.b" "0xBb" .Ownable false sWrapped).2.2 =
      [.registrySetSubnodeRecord contracts0.ENS_REGISTRY (namehash "b") "a" env0.account
        (sWrapped.registryResolver (namehash "b")) 0]) :=
  create_subname_branches env0 contracts0 "a.b" "0xBb" .Ownable false sWrapped ⟨"a", "b"⟩
    (by decide) (by decide)

theorem l2_create_subname_cex :
    sWrapped.wrapped (namehash "b") = true ∧
    writesOf (L2.createSubname env0 contracts0 "a.b" "0xBb" .Ownable false sWrapped).2.2 =
      [.registrySetSubnodeRecord "0xreg" (namehash "b") "a" "0xaaa" "0xparentres" 0] ∧
    "0xparentres" ≠ contracts0.PUBLIC_RESOLVER := by decide

/-- C3 (the code contradicts the spec here): with telemetry enabled,
a rejected `logMetric` delivery propagates out of `createSubname`,
`setForwardResolution` and `setReverseResolution` — the `await` is not
wrapped in try/catch — and aborts `nameContract` with a
`metricsFailure` error, whereas the identical run with a working
metrics endpoint completes; the spec requires telemetry failures never
to fail the naming operation. -/
theorem metrics_failure_fails_naming :
    (L1.createSubname envBad contracts0 "a.b" "0xBb" .Ownable true s0).1 =
      .error .metricsFailure ∧
    (L1.createSubname env0 contracts0 "a.b" "0xBb" .Ownable true s0).1 =
      .ok ⟨true, some "0xtx_registry_setSubnodeRecord"⟩ ∧
    (L2.createSubname envBad contracts0 "a.b" "0xBb" .Ownable true s0).1 =
      .error .metricsFailure ∧
    (L1.setForwardResolution envBad contracts0 "a.b" "0xBb" .Ownable none true s0).1 =
      .error .metricsFailure ∧
    (L1.setReverseResolution envBad contracts0 "a.b" "0xBb" .Ownable true sOwnMe).1 =
      .error .metricsFailure ∧
    (L2.setReverseResolution envBad contracts0 "a.b" "0xBb" .Ownable true sOwnMe).1 =
      .error .metricsFailure ∧
    (Old.nameContract envBad contracts0 none "a.b" "0xBb" true s0 s0).1 =
      .error .metricsFailure ∧
    (Old.nameContract env0 contracts0 none "a.b" "0xBb" true s0 s0).1 ≠
      .error .metricsFailure := by decide



theorem newNameContract_success (env : Env) (opts : New.NameContractOptions) (s : ChainState) :
    returnedSuccess (New.nameContract env opts s).1 = true := by
  unfold New.nameContract
  dsimp only
  split <;> (repeat' split) <;> simp [returnedSuccess]

theorem oldNameContract_success (env : Env) (l1c : ENSContracts) (l2c : Option ENSContracts)
    (name addr : String) (em : Bool) (s1 s2 : ChainState) :
    returnedSuccess (Old.nameContract env l1c l2c name addr em s1 s2).1 = true := by
  unfold Old.nameContract
  dsimp only
  repeat' split
  all_goals simp [returnedSuccess]



/-- C2 (amended): when the contract is classified `Unknown` and the
caller passes the ownership check, the reverse-resolution step fails
fatally with the `UnsupportedContractType` error without writing; but
`nameContract` propagates that exception instead of returning a result:
every `NameContractResult` either orchestrator actually returns has
`success = true`, never `false` (`unknown_success_false_cex` shows a
full run — subname and forward writes landed — ending in the propagated
error). -/
theorem unknown_reverse_fatal_no_false_success :
    (∀ (env : Env) (contracts : ENSContracts) (name addr : String) (em : Bool) (s : ChainState),
      (isContractOwner env addr contracts.ENS_REGISTRY s).1 = true →
      ((L1.setReverseResolution env contracts name addr .Unknown em s).1 =
          .error .unsupportedContractType ∧
        writesOf (L1.setReverseResolution env contracts name addr .Unknown em s).2.2 = [] ∧
        (L2.setReverseResolution env contracts name addr .Unknown em s).1 =
          .error .unsupportedContractType ∧
        writesOf (L2.setReverseResolution env contracts name addr .Unknown em s).2.2 = [])) ∧
    (∀ (env : Env) (opts : New.NameContractOptions) (s : ChainState),
      returnedSuccess (New.nameContract env opts s).1 = true) ∧
    (∀ (env : Env) (l1c : ENSContracts) (l2c : Option ENSContracts) (name addr : String)
      (em : Bool) (s1 s2 : ChainState),
      returnedSuccess (Old.nameContract env l1c l2c name addr em s1 s2).1 = true) := by
  refine ⟨?_, newNameContract_success, oldNameContract_success⟩
  intro env contracts name addr em s hown
  unfold L1.setReverseResolution L2.setReverseResolution
  simp [hown, writesOf_isContractOwner]

theorem unknown_reverse_fatal_witness :
    (L1.setReverseResolution env0 contracts0 "a.b" "0xBb" .Unknown false sOwnMe).1 =
      .error .unsupportedContractType ∧
    writesOf (L1.setReverseResolution env0 contracts0 "a.b" "0xBb" .Unknown false sOwnMe).2.2 = [] ∧
    (L2.setReverseResolution env0 contracts0 "a.b" "0xBb" .Unknown false sOwnMe).1 =
      .error .unsupportedContractType ∧
    writesOf (L2.setReverseResolution env0 contracts0 "a.b" "0xBb" .Unknown false sOwnMe).2.2 = [] :=
  unknown_reverse_fatal_no_false_success.1 env0 contracts0 "a.b" "0xBb" false sOwnMe (by decide)

theorem unknown_success_false_cex :
    (detectContractTypeRC env0 "0xDd" contracts0.ENS_REGISTRY s0).1 = .Unknown ∧
    (Old.nameContract env0 contracts0 none "dd.addr.reverse" "0xDd" false s0 s0).1 =
      .error .unsupportedContractType ∧
    writesOf (Old.nameContract env0 contracts0 none "dd.addr.reverse" "0xDd" false s0 s0).2.2.2 =
      [.registrySetSubnodeRecord "0xreg" (namehash "addr.reverse") "dd" "0xaaa" "0xres" 0,
       .resolverSetAddr "0xres" (namehash "dd.addr.reverse") "0xDd"] := by decide



theorem readsOf_read_cons (r : ReadCall) (t : Trace) :
    readsOf (.read r :: t) = r :: readsOf t := by
  simp [readsOf, List.filterMap_cons]

theorem metricsGate_no_invalid {α : Type} (env : Env) (em : Bool) (a : α) :
    metricsGate env em a ≠ .error .invalidName := by
  rcases metricsGate_cases env em a with h | h <;> simp [h]

theorem isAddressValid_false_of_viem (env : Env) (addr : String)
    (hv : env.viemIsAddress addr = false) : isAddressValid env addr = false := by
  unfold isAddressValid
  by_cases he : isEmpty addr <;> simp [he, hv]

theorem isOwnable_false_of_invalid (env : Env) (addr : String) (s : ChainState)
    (hv : env.viemIsAddress addr = false) : isOwnable env addr s = (false, []) := by
  unfold isOwnable
  simp [isAddressValid_false_of_viem env addr hv]

theorem isReverseClaimable_false_of_invalid (env : Env) (addr reg : String) (s : ChainState)
    (hv : env.viemIsAddress addr = false) :
    isReverseClaimable env addr reg s = (false, []) := by
  unfold isReverseClaimable
  simp [isAddressValid_false_of_viem env addr hv]

theorem detectRC_unknown_of_invalid (env : Env) (addr reg : String) (s : ChainState)
    (hv : env.viemIsAddress addr = false) :
    detectContractTypeRC env addr reg s = (.Unknown, []) := by
  unfold detectContractTypeRC
  simp [isOwnable_false_of_invalid env addr s hv,
    isReverseClaimable_false_of_invalid env addr reg s hv]

theorem l1_createSubname_no_invalid (env : Env) (contracts : ENSContracts)
    (name addr : String) (ctype : ContractType) (em : Bool) (s : ChainState) (r : NameParts)
    (hp : parseNormalizedName name = .ok r) :
    (L1.createSubname env contracts name addr ctype em s).1 ≠ .error .invalidName := by
  unfold L1.createSubname
  rw [hp]
  dsimp only
  by_cases hex : s.recordExists (namehash name)
  · simp [hex]
  · by_cases hw : s.wrapped (namehash r.parent) <;>
      simp [hex, hw, metricsGate_no_invalid]

theorem setForward_no_invalid (env : Env) (contracts : ENSContracts)
    (name addr : String) (ctype : ContractType) (coin : Option Nat) (em : Bool) (s : ChainState) :
    (L1.setForwardResolution env contracts name addr ctype coin em s).1 ≠ .error .invalidName := by
  by_cases heq : (lowerStr (storedForward s (namehash name) coin) == lowerStr addr) = true
  · rw [setForward_skip env contracts name addr ctype coin em s heq]
    simp
  · rw [setForward_write env contracts name addr ctype coin em s (by simpa using heq)]
    simp [metricsGate_no_invalid]

theorem l1_setReverse_no_invalid (env : Env) (contracts : ENSContracts)
    (name addr : String) (ctype : ContractType) (em : Bool) (s : ChainState) :
    (L1.setReverseResolution env contracts name addr ctype em s).1 ≠ .error .invalidName := by
  unfold L1.setReverseResolution
  by_cases hio : (isContractOwner env addr contracts.ENS_REGISTRY s).1
  · cases ctype <;> simp [hio, metricsGate_no_invalid]
  · simp [hio]

theorem l1_createSubname_invalid (env : Env) (contracts : ENSContracts)
    (name addr : String) (ctype : ContractType) (em : Bool) (s : ChainState)
    (hp : parseNormalizedName name = .error .invalidName) :
    L1.createSubname env contracts name addr ctype em s = (.error .invalidName, s, []) := by
  unfold L1.createSubname
  rw [hp]

theorem detectRC_reads_ne_nil (env : Env) (addr reg : String) (s : ChainState)
    (hv : env.viemIsAddress addr = true) (he : isAddressEmpty addr = false) :
    readsOf (detectContractTypeRC env addr reg s).2 ≠ [] := by
  have hva : isAddressValid env addr = true := by
    unfold isAddressValid
    have he2 : isEmpty addr = false := he
    simp [he2, hv]
  unfold detectContractTypeRC isReverseClaimable
  by_cases hrc : (lowerStr (s.registryOwner (reverseNode addr)) == lowerStr env.account)
  · simp [he, hva, hrc, readsOf_read_cons]
  · by_cases ho : (isOwnable env addr s).1 <;>
      simp [he, hva, hrc, ho, List.singleton_append, readsOf_read_cons]



theorem old_no_invalidname_of_parse_ok (env : Env) (l1c : ENSContracts)
    (name addr : String) (em : Bool) (s1 s2 : ChainState) (r : NameParts)
    (hp : parseNormalizedName name = .ok r) :
    (Old.nameContract env l1c none name addr em s1 s2).1 ≠ .error .invalidName := by
  unfold Old.nameContract
  dsimp only
  split
  · rename_i e s1a tA heq
    have hni := l1_createSubname_no_invalid env l1c name addr
      (detectContractTypeRC env addr l1c.ENS_REGISTRY s1).1 em s1 r hp
    rw [heq] at hni
    simpa using hni
  · rename_i subRes s1a tA heqA
    split
    · rename_i e s1b tB heqB
      have hni := setForward_no_invalid env l1c name addr
        (detectContractTypeRC env addr l1c.ENS_REGISTRY s1).1 none em s1a
      rw [heqB] at hni
      simpa using hni
    · rename_i fwdRes s1b tB heqB
      split
      · rename_i e s1c tC heqC
        have hni := l1_setReverse_no_invalid env l1c name addr
          (detectContractTypeRC env addr l1c.ENS_REGISTRY s1).1 em s1b
        rw [heqC] at hni
        simpa using hni
      · rename_i revRes s1c tC heqC
        simp



/-- C4 (amended): an address failing validation is never surfaced as
an invalid-input error — both probes treat it as a negative result, the
contract classifies as `Unknown` with no chain call, and `nameContract`
proceeds (and can even succeed, `invalid_address_proceeds_cex`); a name
with fewer than two dot-separated segments does raise the
invalid-name error, but only from `parseNormalizedName` inside
`createSubname`, after contract-type detection has already performed
at least one on-chain read — not before any on-chain call as the claim
states. -/
theorem invalid_input_not_immediate :
    (∀ (env : Env) (l1c : ENSContracts) (name addr : String) (em : Bool)
        (s1 s2 : ChainState) (r : NameParts),
      env.viemIsAddress addr = false → parseNormalizedName name = .ok r →
      detectContractTypeRC env addr l1c.ENS_REGISTRY s1 = (.Unknown, []) ∧
      (Old.nameContract env l1c none name addr em s1 s2).1 ≠ .error .invalidName) ∧
    (∀ (env : Env) (l1c : ENSContracts) (name addr : String) (em : Bool)
        (s1 s2 : ChainState),
      env.viemIsAddress addr = true → isAddressEmpty addr = false → ¬('.' ∈ name.data) →
      (Old.nameContract env l1c none name addr em s1 s2).1 = .error .invalidName ∧
      readsOf (Old.nameContract env l1c none name addr em s1 s2).2.2.2 ≠ []) := by
  constructor
  · intro env l1c name addr em s1 s2 r hv hp
    exact ⟨detectRC_unknown_of_invalid env addr l1c.ENS_REGISTRY s1 hv,
      old_no_invalidname_of_parse_ok env l1c name addr em s1 s2 r hp⟩
  · intro env l1c name addr em s1 s2 hv he hdot
    have hp := parse_fail_of_no_dot name hdot
    unfold Old.nameContract
    dsimp only
    rw [l1_createSubname_invalid env l1c name addr
      (detectContractTypeRC env addr l1c.ENS_REGISTRY s1).1 em s1 hp]
    refine ⟨rfl, ?_⟩
    dsimp only
    rw [List.append_nil]
    exact detectRC_reads_ne_nil env addr l1c.ENS_REGISTRY s1 hv he

theorem invalid_input_not_immediate_witness :
    (detectContractTypeRC env0 "foo" contracts0.ENS_REGISTRY sExists = (.Unknown, []) ∧
      (Old.nameContract env0 contracts0 none "a.b" "foo" false sExists s0).1 ≠
        .error .invalidName) ∧
    ((Old.nameContract env0 contracts0 none "plain" "0xBb" false s0 s0).1 =
        .error .invalidName ∧
      readsOf (Old.nameContract env0 contracts0 none "plain" "0xBb" false s0 s0).2.2.2 ≠ []) :=
  ⟨invalid_input_not_immediate.1 env0 contracts0 "a.b" "foo" false sExists s0 ⟨"a", "b"⟩
      (by decide) rfl,
   invalid_input_not_immediate.2 env0 contracts0 "plain" "0xBb" false s0 s0
      (by decide) (by decide) (by decide)⟩

theorem invalid_address_proceeds_cex :
    env0.viemIsAddress "foo" = false ∧
    exceptOk (Old.nameContract env0 contracts0 none "a.b" "foo" false sExists s0).1 = true ∧
    returnedSuccess (Old.nameContract env0 contracts0 none "a.b" "foo" false sExists s0).1 =
      true := by decide



end Enscribe
